import Mathlib

/-!
Shallow embedding of the BOQ repository layer
(`internal/adapters/postgres/boq_repo.go`) of the BuildWise backend.

The database is an explicit state (`DB`).  Each repository operation
opens a transaction, works on a transaction-local copy of the state,
and returns the durable state together with its result: an error path
rolls the transaction back (the durable state is the input state), a
successful `Commit` makes the transaction-local state durable.

Store-level failures (connection loss and the like) are modelled by a
fault environment `Env : Nat → Option Nat`: the `k`-th query issued by
an operation fails with fault code `n` when `env k = some n`.  The
constant `noFault` environment models a healthy database.

UUIDs are modelled as `Nat` (the database mints fresh ones; minted ids
are passed explicitly where a row is created), `float64` columns as
`Int` (no arithmetic is performed on them), nullable columns as
`Option`.
-/

namespace BoqRepo

/-- A row of the `boq` table: `boq_id`, `project_id`, `status`,
nullable `selling_general_cost`. -/
structure Boq where
  boqID : Nat
  projectID : Nat
  status : String
  sellingGeneralCost : Option Int
deriving Repr, DecidableEq

/-- A row of the `job` table: `job_id`, `name`, nullable `description`,
`unit`. -/
structure Job where
  jobID : Nat
  name : String
  description : Option String
  unit : String
deriving Repr, DecidableEq

/-- A row of the `boq_job` join table: `(boq_id, job_id)` with per-BOQ
`quantity` and `labor_cost`. -/
structure BoqJob where
  boqID : Nat
  jobID : Nat
  quantity : Int
  laborCost : Int
deriving Repr, DecidableEq

/-- A row of the `job_material` table (the Go code reads `material_id`
as a string). -/
structure JobMaterial where
  jobID : Nat
  materialID : String
  quantity : Int
deriving Repr, DecidableEq

/-- A row of the `material_price_log` table. -/
structure MaterialPriceLog where
  materialID : String
  boqID : Nat
  jobID : Nat
  quantity : Int
  updatedAt : Nat
deriving Repr, DecidableEq

/-- The relational store: one list of rows per table, plus the clock
used for `CURRENT_TIMESTAMP`. -/
structure DB where
  projects : List Nat
  boqs : List Boq
  jobs : List Job
  boqJobs : List BoqJob
  jobMaterials : List JobMaterial
  priceLogs : List MaterialPriceLog
  now : Nat
deriving Repr, DecidableEq

/-- `requests.BOQJobRequest`. -/
structure BOQJobRequest where
  jobID : Nat
  quantity : Int
  laborCost : Int
deriving Repr, DecidableEq

/-- `responses.JobResponse`; `description` is a plain string
(`job.Description.String`, empty when the stored value is NULL). -/
structure JobResponse where
  jobID : Nat
  name : String
  description : String
  unit : String
deriving Repr, DecidableEq

/-- `responses.BOQResponse`; `sellingGeneralCost` is numeric
(`data.SellingGeneralCost.Float64`, 0 when the stored value is NULL). -/
structure BOQResponse where
  id : Nat
  projectID : Nat
  status : String
  sellingGeneralCost : Int
  jobs : List JobResponse
deriving Repr, DecidableEq

/-- Store-level errors a single query can produce: `sql.ErrNoRows`, a
uniqueness-constraint violation, or an injected fault (connection loss
and the like). -/
inductive DBErr where
  | noRows
  | constraint
  | fault (n : Nat)
deriving Repr, DecidableEq

/-- The error taxonomy of the repository layer: `boq not found`,
`can only add/delete jobs ... in draft status`, and the generic
wrapped data error carrying its store-level cause. -/
inductive RepoErr where
  | notFound
  | invalidState
  | dataAccess (cause : DBErr)
deriving Repr, DecidableEq

/-- Fault environment: `env k = some n` makes the `k`-th query issued
by an operation fail with fault code `n`. -/
def Env : Type := Nat → Option Nat

/-- The healthy environment: no query fails. -/
def noFault : Env := fun _ => none

/-- `SELECT status FROM boq WHERE boq_id = $1` via `tx.GetContext`
(query index `k`): an injected fault, `sql.ErrNoRows` when no row
matches, or the status of the first matching row. -/
def fetchStatus (env : Env) (k : Nat) (tx : DB) (boqID : Nat) :
    Except DBErr String :=
  match env k with
  | some n => .error (.fault n)
  | none =>
    match tx.boqs.find? (fun b => b.boqID == boqID) with
    | none => .error .noRows
    | some b => .ok b.status

/-- Modelled from the spec: the `boq_job` table carries
`UNIQUE(boq_id, job_id)` (the schema migration is not under `src/`;
the Go code relies on the database rejecting a duplicate insert).
`INSERT INTO boq_job (boq_id, job_id, quantity, labor_cost)` at query
index `k`. -/
def insertBoqJob (env : Env) (k : Nat) (tx : DB) (boqID : Nat)
    (req : BOQJobRequest) : Except DBErr DB :=
  match env k with
  | some n => .error (.fault n)
  | none =>
    if tx.boqJobs.any (fun bj => bj.boqID == boqID && bj.jobID == req.jobID)
    then .error .constraint
    else .ok { tx with
      boqJobs := tx.boqJobs ++ [⟨boqID, req.jobID, req.quantity, req.laborCost⟩] }

/-- `SELECT material_id, quantity FROM job_material WHERE job_id = $1`
at query index `k`. -/
def selectMaterials (env : Env) (k : Nat) (tx : DB) (jobID : Nat) :
    Except DBErr (List JobMaterial) :=
  match env k with
  | some n => .error (.fault n)
  | none => .ok (tx.jobMaterials.filter (fun m => m.jobID == jobID))

/-- The `EXISTS` predicate of the price-log check: a
`material_price_log` row for `(boq_id, material_id, job_id)` is
present. -/
def logExists (logs : List MaterialPriceLog) (boqID : Nat)
    (materialID : String) (jobID : Nat) : Bool :=
  logs.any (fun l =>
    l.boqID == boqID && l.materialID == materialID && l.jobID == jobID)

/-- The per-material loop of `AddBOQJob`: for each `job_material` row,
one `SELECT EXISTS` query, then — when the row is absent — one
`INSERT INTO material_price_log (..., CURRENT_TIMESTAMP)` query.
Returns the transaction state and the next query index. -/
def insertPriceLogs (env : Env) (boqID jobID : Nat) :
    Nat → List JobMaterial → DB → Except DBErr (DB × Nat)
  | k, [], tx => .ok (tx, k)
  | k, m :: ms, tx =>
    match env k with
    | some n => .error (.fault n)
    | none =>
      if logExists tx.priceLogs boqID m.materialID jobID then
        insertPriceLogs env boqID jobID (k + 1) ms tx
      else
        match env (k + 1) with
        | some n => .error (.fault n)
        | none =>
          insertPriceLogs env boqID jobID (k + 2) ms
            { tx with priceLogs := tx.priceLogs ++
                [⟨m.materialID, boqID, jobID, m.quantity, tx.now⟩] }

/-- `AddBOQJob(ctx, boqID, req)`.  Query indices: 0 `BeginTxx`,
1 status fetch, 2 `boq_job` insert, 3 `job_material` select, 4…
the per-material loop, then `Commit`.  The first component of the
result is the durable state: the input state on every error path
(deferred `tx.Rollback()`), the transaction state after a successful
`Commit`. -/
def AddBOQJob (env : Env) (db : DB) (boqID : Nat) (req : BOQJobRequest) :
    DB × Except RepoErr Unit :=
  match env 0 with
  | some n => (db, .error (.dataAccess (.fault n)))
  | none =>
    match fetchStatus env 1 db boqID with
    | .error .noRows => (db, .error .notFound)
    | .error e => (db, .error (.dataAccess e))
    | .ok status =>
      if status != "draft" then (db, .error .invalidState)
      else
        match insertBoqJob env 2 db boqID req with
        | .error e => (db, .error (.dataAccess e))
        | .ok tx1 =>
          match selectMaterials env 3 tx1 req.jobID with
          | .error e => (db, .error (.dataAccess e))
          | .ok mats =>
            match insertPriceLogs env boqID req.jobID 4 mats tx1 with
            | .error e => (db, .error (.dataAccess e))
            | .ok (tx2, k) =>
              match env k with
              | some n => (db, .error (.dataAccess (.fault n)))
              | none => (tx2, .ok ())

/-- `DeleteBOQJob(ctx, boqID, jobID)`.  Query indices: 0 `BeginTxx`,
1 status fetch, 2 the `DELETE`, 3 `Commit`.  The `DELETE` removes the
`boq_job` rows matching `(boq_id, job_id)`; zero matched rows is not
an error. -/
def DeleteBOQJob (env : Env) (db : DB) (boqID jobID : Nat) :
    DB × Except RepoErr Unit :=
  match env 0 with
  | some n => (db, .error (.dataAccess (.fault n)))
  | none =>
    match fetchStatus env 1 db boqID with
    | .error .noRows => (db, .error .notFound)
    | .error e => (db, .error (.dataAccess e))
    | .ok status =>
      if status != "draft" then (db, .error .invalidState)
      else
        match env 2 with
        | some n => (db, .error (.dataAccess (.fault n)))
        | none =>
          let keep : BoqJob → Bool := fun bj => !(bj.boqID == boqID && bj.jobID == jobID)
          let tx : DB := { db with boqJobs := db.boqJobs.filter keep }
          match env 3 with
          | some n => (db, .error (.dataAccess (.fault n)))
          | none => (tx, .ok ())

/-- The first row of `SELECT ... FROM boq b JOIN project p ON
p.project_id = b.project_id WHERE b.project_id = $1`: a `boq` row for
the project, visible only when the `project` row exists. -/
def findBoqRow (tx : DB) (projectID : Nat) : Option Boq :=
  if tx.projects.contains projectID then
    tx.boqs.find? (fun b => b.projectID == projectID)
  else none

/-- `SELECT DISTINCT j.* FROM job j JOIN boq_job bj ON j.job_id =
bj.job_id WHERE bj.boq_id = $1`: the jobs linked to the BOQ through
the join table. -/
def jobsFor (tx : DB) (boqID : Nat) : List Job :=
  tx.jobs.filter (fun j =>
    tx.boqJobs.any (fun bj => bj.boqID == boqID && bj.jobID == j.jobID))

/-- Conversion of a `job` row to `responses.JobResponse`:
`job.Description.String` is the empty string when the column is NULL. -/
def mkJobResponse (j : Job) : JobResponse :=
  ⟨j.jobID, j.name, j.description.getD "", j.unit⟩

/-- The lookup / create-on-miss step of `GetBoqWithProject`: query 1
is the join select; on `sql.ErrNoRows`, query 2 is
`INSERT INTO boq (project_id, status, selling_general_cost)
VALUES ($1, 'draft', NULL) RETURNING ...` with the database-minted id
`freshId`.  Returns the scanned row, the transaction state, and the
next query index. -/
def getBoqData (env : Env) (freshId : Nat) (db : DB) (projectID : Nat) :
    Except DBErr (Boq × DB × Nat) :=
  match env 1 with
  | some n => .error (.fault n)
  | none =>
    match findBoqRow db projectID with
    | some b => .ok (b, db, 2)
    | none =>
      match env 2 with
      | some n => .error (.fault n)
      | none =>
        let b : Boq := ⟨freshId, projectID, "draft", none⟩
        .ok (b, { db with boqs := db.boqs ++ [b] }, 3)

/-- `GetBoqWithProject(ctx, projectID)`.  Query indices: 0 `BeginTxx`,
then `getBoqData` (1, and 2 on the create-on-miss path), then the jobs
select.  The source has `defer tx.Rollback()` and no `Commit` call on
any path, so the durable state (first component) is the input state on
every path; the response is assembled from the transaction state.
(The `fmt.Print(response)` in the source is console output and is not
modelled.) -/
def GetBoqWithProject (env : Env) (freshId : Nat) (db : DB)
    (projectID : Nat) : DB × Except RepoErr BOQResponse :=
  match env 0 with
  | some n => (db, .error (.dataAccess (.fault n)))
  | none =>
    match getBoqData env freshId db projectID with
    | .error e => (db, .error (.dataAccess e))
    | .ok (data, tx, k) =>
      match env k with
      | some n => (db, .error (.dataAccess (.fault n)))
      | none =>
        (db, .ok
          { id := data.boqID
            projectID := data.projectID
            status := data.status
            sellingGeneralCost := data.sellingGeneralCost.getD 0
            jobs := (jobsFor tx data.boqID).map mkJobResponse })

/-- The `material_price_log` rows the per-material loop adds on a
fault-free run: one row per `job_material` row whose
`(boq_id, material_id, job_id)` triple is not yet logged, carrying the
material's quantity and the clock value. -/
def newLogRows (boqID jobID : Nat) (now : Nat) (ms : List JobMaterial)
    (logs : List MaterialPriceLog) : List MaterialPriceLog :=
  (ms.filter (fun m => !logExists logs boqID m.materialID jobID)).map
    (fun m => ⟨m.materialID, boqID, jobID, m.quantity, now⟩)

/-- One repository call, for reasoning about call sequences. -/
inductive Op where
  | get (freshId projectID : Nat)
  | add (boqID : Nat) (req : BOQJobRequest)
  | del (boqID jobID : Nat)
deriving Repr, DecidableEq

/-- The durable database state after one repository call. -/
def applyOp (env : Env) (op : Op) (db : DB) : DB :=
  match op with
  | .get freshId projectID => (GetBoqWithProject env freshId db projectID).1
  | .add boqID req => (AddBOQJob env db boqID req).1
  | .del boqID jobID => (DeleteBOQJob env db boqID jobID).1

/-- The durable database state after a sequence of repository calls. -/
def runOps (env : Env) (ops : List Op) (db : DB) : DB :=
  ops.foldl (fun s op => applyOp env op s) db

/-- The `boq_job` rows of one BOQ: its job set. -/
def jobSet (db : DB) (boqID : Nat) : List BoqJob :=
  db.boqJobs.filter (fun bj => bj.boqID == boqID)

/-- The stored status of one BOQ, when its row exists. -/
def statusOf (db : DB) (boqID : Nat) : Option String :=
  (db.boqs.find? (fun b => b.boqID == boqID)).map Boq.status

/-- A store holding one project (id 1) and no BOQ row. -/
def projOnlyDB : DB := ⟨[1], [], [], [], [], [], 0⟩

/-- A store holding a draft BOQ (id 7, project 1) and a job (id 20)
with two materials; no `boq_job` and no price-log rows yet. -/
def draftDB : DB :=
  ⟨[1], [⟨7, 1, "draft", none⟩], [⟨20, "J1", none, "m2"⟩], [],
   [⟨20, "Steel", 5⟩, ⟨20, "Cement", 10⟩], [], 3⟩

/-- `draftDB` with the BOQ status flipped to `confirmed`. -/
def confirmedDB : DB :=
  ⟨[1], [⟨7, 1, "confirmed", none⟩], [⟨20, "J1", none, "m2"⟩], [],
   [⟨20, "Steel", 5⟩, ⟨20, "Cement", 10⟩], [], 3⟩

/-- `draftDB` after a successful `AddBOQJob 7 ⟨20, 2, 100⟩`. -/
def draftDB1 : DB :=
  ⟨[1], [⟨7, 1, "draft", none⟩], [⟨20, "J1", none, "m2"⟩],
   [⟨7, 20, 2, 100⟩],
   [⟨20, "Steel", 5⟩, ⟨20, "Cement", 10⟩],
   [⟨"Steel", 7, 20, 5, 3⟩, ⟨"Cement", 7, 20, 10, 3⟩], 3⟩

/-- An empty store. -/
def emptyDB : DB := ⟨[], [], [], [], [], [], 0⟩

/-- The request used by concrete instances. -/
def reqJ20 : BOQJobRequest := ⟨20, 2, 100⟩

/-- An environment that fails the second query (index 1, the status
fetch) with fault code 42. -/
def faultAt1 : Env := fun k => if k == 1 then some 42 else none

theorem noFault_none (k : Nat) : noFault k = none := rfl

theorem getBoq_durable (env : Env) (freshId : Nat) (db : DB)
    (projectID : Nat) :
    (GetBoqWithProject env freshId db projectID).1 = db := by
  unfold GetBoqWithProject
  split
  · rfl
  · split
    · rfl
    · split
      · rfl
      · rfl

theorem fetchStatus_ok {env : Env} {k : Nat} {db : DB} {boqID : Nat}
    {s : String} (h : fetchStatus env k db boqID = .ok s) :
    statusOf db boqID = some s := by
  unfold fetchStatus at h
  split at h
  · exact absurd h (by simp)
  · unfold statusOf
    split at h
    · exact absurd h (by simp)
    · next b hfind =>
      rw [hfind]
      simpa using Except.ok.inj h

theorem insertPriceLogs_shape (env : Env) (boqID jobID : Nat)
    (ms : List JobMaterial) :
    ∀ (k : Nat) (tx tx' : DB) (k' : Nat),
      insertPriceLogs env boqID jobID k ms tx = .ok (tx', k') →
      ∃ ext, tx' = { tx with priceLogs := tx.priceLogs ++ ext } := by
  induction ms with
  | nil =>
    intro k tx tx' k' h
    simp only [insertPriceLogs] at h
    obtain ⟨h1, _⟩ := Prod.mk.injEq .. ▸ (Except.ok.inj h)
    exact ⟨[], by simp [← h1]⟩
  | cons m ms ih =>
    intro k tx tx' k' h
    rw [insertPriceLogs] at h
    split at h
    · exact absurd h (by simp)
    · split at h
      · exact ih _ _ _ _ h
      · split at h
        · exact absurd h (by simp)
        · obtain ⟨ext, hext⟩ := ih _ _ _ _ h
          refine ⟨⟨m.materialID, boqID, jobID, m.quantity, tx.now⟩ :: ext, ?_⟩
          simp [hext]

theorem addBOQJob_shape (env : Env) (db : DB) (boqID : Nat)
    (req : BOQJobRequest) :
    (AddBOQJob env db boqID req).1 = db ∨
    ((AddBOQJob env db boqID req).2 = .ok () ∧
      fetchStatus env 1 db boqID = .ok "draft" ∧
      ∃ ext, (AddBOQJob env db boqID req).1 =
        { db with
            boqJobs := db.boqJobs ++
              [⟨boqID, req.jobID, req.quantity, req.laborCost⟩],
            priceLogs := db.priceLogs ++ ext }) := by
  unfold AddBOQJob
  split
  · exact .inl rfl
  · split
    · exact .inl rfl
    · exact .inl rfl
    · next s hs =>
      split
      · exact .inl rfl
      · next hdraft =>
        split
        · exact .inl rfl
        · next tx1 htx1 =>
          split
          · exact .inl rfl
          · next mats hmats =>
            split
            · exact .inl rfl
            · next tx2 k h2 =>
              split
              · exact .inl rfl
              · refine .inr ⟨rfl, ?_, ?_⟩
                · have : s = "draft" := by simpa using hdraft
                  exact this ▸ hs
                · -- tx1 is db with the boq_job row appended
                  unfold insertBoqJob at htx1
                  split at htx1
                  · exact absurd htx1 (by simp)
                  · split at htx1
                    · exact absurd htx1 (by simp)
                    · obtain ⟨ext, hext⟩ :=
                        insertPriceLogs_shape env boqID req.jobID mats 4
                          tx1 tx2 k h2
                      refine ⟨ext, ?_⟩
                      have h1 := Except.ok.inj htx1
                      simp [hext, ← h1]

theorem deleteBOQJob_shape (env : Env) (db : DB) (boqID jobID : Nat) :
    (DeleteBOQJob env db boqID jobID).1 = db ∨
    ((DeleteBOQJob env db boqID jobID).2 = .ok () ∧
      fetchStatus env 1 db boqID = .ok "draft" ∧
      (DeleteBOQJob env db boqID jobID).1 =
        { db with boqJobs := db.boqJobs.filter (fun bj => !(bj.boqID == boqID && bj.jobID == jobID)) }) := by
  unfold DeleteBOQJob
  split
  · exact .inl rfl
  · split
    · exact .inl rfl
    · exact .inl rfl
    · next s hs =>
      split
      · exact .inl rfl
      · next hdraft =>
        split
        · exact .inl rfl
        · split
          · exact .inl rfl
          · refine .inr ⟨rfl, ?_, rfl⟩
            have : s = "draft" := by simpa using hdraft
            exact this ▸ hs

/-- C2: `GetBoqWithProject` never commits its transaction on any
return path — including the create-on-miss path that inserts a new
BOQ row — so the durable database state after the call equals the
state before it on every execution, successful or not. -/
theorem getBoqWithProject_never_commits (env : Env) (freshId : Nat)
    (db : DB) (projectID : Nat) :
    (GetBoqWithProject env freshId db projectID).1 = db :=
  getBoq_durable env freshId db projectID

/-- C1 (code bug): on a project with no BOQ row the create-on-miss
path of `GetBoqWithProject` builds a draft view, but the transaction
is rolled back (no commit), so no BOQ row persists and an immediate
second call mints a different boq_id (11 instead of 10) instead of
returning the first one. -/
theorem getBoq_createOnMiss_not_durable :
    (GetBoqWithProject noFault 10 projOnlyDB 1).2 =
      .ok ⟨10, 1, "draft", 0, []⟩ ∧
    (GetBoqWithProject noFault 10 projOnlyDB 1).1.boqs = [] ∧
    (GetBoqWithProject noFault 11
        ((GetBoqWithProject noFault 10 projOnlyDB 1).1) 1).2 =
      .ok ⟨11, 1, "draft", 0, []⟩ :=
  ⟨rfl, rfl, rfl⟩

/-- C9: the view returned by `GetBoqWithProject` carries the BOQ id,
project id, status, the stored cost with NULL read as 0, and for each
linked job its id, name, description (NULL read as the empty string)
and unit. -/
theorem getBoq_view_defaults :
    (∀ (freshId : Nat) (db : DB) (projectID : Nat) (data : Boq)
        (tx : DB) (k : Nat),
      getBoqData noFault freshId db projectID = .ok (data, tx, k) →
      (GetBoqWithProject noFault freshId db projectID).2 = .ok
        ⟨data.boqID, data.projectID, data.status,
         data.sellingGeneralCost.getD 0,
         (jobsFor tx data.boqID).map mkJobResponse⟩) ∧
    (∀ b : Boq, b.sellingGeneralCost = none →
      b.sellingGeneralCost.getD 0 = 0) ∧
    (∀ j : Job, j.description = none →
      mkJobResponse j = ⟨j.jobID, j.name, "", j.unit⟩) := by
  refine ⟨?_, ?_, ?_⟩
  · intro freshId db projectID data tx k h
    unfold GetBoqWithProject
    rw [h]
    rfl
  · intro b hb
    rw [hb]
    rfl
  · intro j hj
    unfold mkJobResponse
    rw [hj]
    rfl

/-- Witness for C9: the view of `draftDB1` for project 1 via the
lookup path of `getBoqData`. -/
theorem getBoq_view_defaults_witness :
    (GetBoqWithProject noFault 99 draftDB1 1).2 = .ok
      ⟨7, 1, "draft", (none : Option Int).getD 0,
       (jobsFor draftDB1 7).map mkJobResponse⟩ :=
  getBoq_view_defaults.1 99 draftDB1 1 ⟨7, 1, "draft", none⟩ draftDB1 2 rfl

/-- C3: adding a job to a BOQ whose status is not exactly draft fails
with `InvalidStateError` and leaves the BOQ's `boq_job` rows
unchanged. -/
theorem addBOQJob_nonDraft_invalidState (db : DB) (boqID : Nat)
    (req : BOQJobRequest) (b : Boq)
    (hfind : db.boqs.find? (fun x => x.boqID == boqID) = some b)
    (hstatus : b.status ≠ "draft") :
    AddBOQJob noFault db boqID req = (db, .error .invalidState) ∧
    (AddBOQJob noFault db boqID req).1.boqJobs = db.boqJobs := by
  have hmain : AddBOQJob noFault db boqID req = (db, .error .invalidState) := by
    unfold AddBOQJob fetchStatus
    simp [noFault, hfind, hstatus]
  exact ⟨hmain, by rw [hmain]⟩

/-- Witness for C3: adding to the confirmed BOQ of `confirmedDB`. -/
theorem addBOQJob_nonDraft_invalidState_witness :
    AddBOQJob noFault confirmedDB 7 reqJ20 =
      (confirmedDB, .error .invalidState) ∧
    (AddBOQJob noFault confirmedDB 7 reqJ20).1.boqJobs =
      confirmedDB.boqJobs :=
  addBOQJob_nonDraft_invalidState confirmedDB 7 reqJ20
    ⟨7, 1, "confirmed", none⟩ rfl (by decide)

/-- C4: whenever `AddBOQJob` returns an error — at any stage — the
transaction is rolled back: the durable state equals the input state,
so no `boq_job` row and no `material_price_log` row from the call
persists. -/
theorem addBOQJob_error_rollback (env : Env) (db : DB) (boqID : Nat)
    (req : BOQJobRequest) (e : RepoErr)
    (herr : (AddBOQJob env db boqID req).2 = .error e) :
    (AddBOQJob env db boqID req).1 = db ∧
    (AddBOQJob env db boqID req).1.boqJobs = db.boqJobs ∧
    (AddBOQJob env db boqID req).1.priceLogs = db.priceLogs := by
  rcases addBOQJob_shape env db boqID req with h | ⟨hok, _, _⟩
  · exact ⟨h, by rw [h], by rw [h]⟩
  · rw [hok] at herr
    exact absurd herr (by simp)

/-- Witness for C4: the not-found failure on the empty store. -/
theorem addBOQJob_error_rollback_witness :
    (AddBOQJob noFault emptyDB 7 reqJ20).1 = emptyDB ∧
    (AddBOQJob noFault emptyDB 7 reqJ20).1.boqJobs = emptyDB.boqJobs ∧
    (AddBOQJob noFault emptyDB 7 reqJ20).1.priceLogs = emptyDB.priceLogs :=
  addBOQJob_error_rollback noFault emptyDB 7 reqJ20 .notFound rfl

/-- C5: with no matching BOQ row both `AddBOQJob` and `DeleteBOQJob`
return `NotFoundError`; when the status fetch fails for any other
reason they return a `DataAccessError`; in all four cases the durable
state is the unchanged input state. -/
theorem statusFetch_notFound_and_dataAccess :
    (∀ (db : DB) (boqID : Nat) (req : BOQJobRequest),
      db.boqs.find? (fun b => b.boqID == boqID) = none →
      AddBOQJob noFault db boqID req = (db, .error .notFound)) ∧
    (∀ (db : DB) (boqID jobID : Nat),
      db.boqs.find? (fun b => b.boqID == boqID) = none →
      DeleteBOQJob noFault db boqID jobID = (db, .error .notFound)) ∧
    (∀ (env : Env) (db : DB) (boqID : Nat) (req : BOQJobRequest) (n : Nat),
      env 0 = none → env 1 = some n →
      AddBOQJob env db boqID req = (db, .error (.dataAccess (.fault n)))) ∧
    (∀ (env : Env) (db : DB) (boqID jobID : Nat) (n : Nat),
      env 0 = none → env 1 = some n →
      DeleteBOQJob env db boqID jobID = (db, .error (.dataAccess (.fault n)))) := by
  refine ⟨?_, ?_, ?_, ?_⟩
  · intro db boqID req hfind
    unfold AddBOQJob fetchStatus
    simp [noFault, hfind]
  · intro db boqID jobID hfind
    unfold DeleteBOQJob fetchStatus
    simp [noFault, hfind]
  · intro env db boqID req n h0 h1
    unfold AddBOQJob fetchStatus
    rw [h0, h1]
  · intro env db boqID jobID n h0 h1
    unfold DeleteBOQJob fetchStatus
    rw [h0, h1]

/-- Witness for C5: the empty store for not-found, and a fault
injected into the status fetch for the data-access case. -/
theorem statusFetch_notFound_and_dataAccess_witness :
    AddBOQJob noFault emptyDB 7 reqJ20 = (emptyDB, .error .notFound) ∧
    DeleteBOQJob noFault emptyDB 7 20 = (emptyDB, .error .notFound) ∧
    AddBOQJob faultAt1 draftDB 7 reqJ20 =
      (draftDB, .error (.dataAccess (.fault 42))) ∧
    DeleteBOQJob faultAt1 draftDB 7 20 =
      (draftDB, .error (.dataAccess (.fault 42))) :=
  ⟨statusFetch_notFound_and_dataAccess.1 emptyDB 7 reqJ20 rfl,
   statusFetch_notFound_and_dataAccess.2.1 emptyDB 7 20 rfl,
   statusFetch_notFound_and_dataAccess.2.2.1 faultAt1 draftDB 7 reqJ20 42 rfl rfl,
   statusFetch_notFound_and_dataAccess.2.2.2 faultAt1 draftDB 7 20 42 rfl rfl⟩

/-- C6: adding a job already present in a draft BOQ hits the
`UNIQUE(boq_id, job_id)` constraint: the call fails with the
constraint violation surfaced as a generic data error and the durable
state — in particular the `boq_job` rows — is unchanged. -/
theorem addBOQJob_duplicate_constraint (db : DB) (boqID : Nat)
    (req : BOQJobRequest) (b : Boq)
    (hfind : db.boqs.find? (fun x => x.boqID == boqID) = some b)
    (hdraft : b.status = "draft")
    (hdup : db.boqJobs.any (fun bj => bj.boqID == boqID && bj.jobID == req.jobID) = true) :
    AddBOQJob noFault db boqID req = (db, .error (.dataAccess .constraint)) := by
  unfold AddBOQJob fetchStatus insertBoqJob
  simp [noFault, hfind, hdraft, hdup]

/-- Witness for C6: re-adding job 20 to BOQ 7 of `draftDB1`, which
already holds the pair. -/
theorem addBOQJob_duplicate_constraint_witness :
    AddBOQJob noFault draftDB1 7 reqJ20 =
      (draftDB1, .error (.dataAccess .constraint)) :=
  addBOQJob_duplicate_constraint draftDB1 7 reqJ20
    ⟨7, 1, "draft", none⟩ rfl rfl rfl

/-- C8: on a draft BOQ, `DeleteBOQJob` succeeds, removes exactly the
`boq_job` rows matching `(boqID, jobID)` and nothing else, is a
successful no-op when zero rows match, and leaves every
`material_price_log` row unchanged. -/
theorem deleteBOQJob_removes_exactly_pair (db : DB) (boqID jobID : Nat)
    (b : Boq)
    (hfind : db.boqs.find? (fun x => x.boqID == boqID) = some b)
    (hdraft : b.status = "draft") :
    DeleteBOQJob noFault db boqID jobID =
      ({ db with boqJobs := db.boqJobs.filter (fun bj => !(bj.boqID == boqID && bj.jobID == jobID)) }, .ok ()) ∧
    (DeleteBOQJob noFault db boqID jobID).1.priceLogs = db.priceLogs ∧
    (db.boqJobs.filter (fun bj => bj.boqID == boqID && bj.jobID == jobID) = [] →
      DeleteBOQJob noFault db boqID jobID = (db, .ok ())) := by
  have hmain : DeleteBOQJob noFault db boqID jobID =
      ({ db with boqJobs := db.boqJobs.filter (fun bj => !(bj.boqID == boqID && bj.jobID == jobID)) }, .ok ()) := by
    unfold DeleteBOQJob fetchStatus
    simp [noFault, hfind, hdraft]
  refine ⟨hmain, by rw [hmain], ?_⟩
  intro hzero
  rw [hmain]
  have hall := List.filter_eq_nil_iff.mp hzero
  have hkeep : db.boqJobs.filter (fun bj => !(bj.boqID == boqID && bj.jobID == jobID)) = db.boqJobs := by
    apply List.filter_eq_self.mpr
    intro bj hbj
    have h1 : (bj.boqID == boqID && bj.jobID == jobID) = false :=
      Bool.eq_false_iff.mpr (hall bj hbj)
    rw [h1]
    rfl
  rw [hkeep]

/-- Witness for C8: removing job 20 from BOQ 7 of `draftDB1`. -/
theorem deleteBOQJob_removes_exactly_pair_witness :
    DeleteBOQJob noFault draftDB1 7 20 =
      ({ draftDB1 with boqJobs := draftDB1.boqJobs.filter (fun bj => !(bj.boqID == 7 && bj.jobID == 20)) }, .ok ()) ∧
    (DeleteBOQJob noFault draftDB1 7 20).1.priceLogs = draftDB1.priceLogs ∧
    (draftDB1.boqJobs.filter (fun bj => bj.boqID == 7 && bj.jobID == 20) = [] →
      DeleteBOQJob noFault draftDB1 7 20 = (draftDB1, .ok ())) :=
  deleteBOQJob_removes_exactly_pair draftDB1 7 20 ⟨7, 1, "draft", none⟩ rfl rfl

theorem logExists_append (l₁ l₂ : List MaterialPriceLog) (boqID : Nat)
    (materialID : String) (jobID : Nat) :
    logExists (l₁ ++ l₂) boqID materialID jobID =
      (logExists l₁ boqID materialID jobID ||
       logExists l₂ boqID materialID jobID) :=
  List.any_append

theorem newLogRows_append_fresh (boqID jobID now : Nat)
    (ms : List JobMaterial) (logs : List MaterialPriceLog)
    (row : MaterialPriceLog)
    (hrow : ∀ m ∈ ms, (row.materialID == m.materialID) = false) :
    newLogRows boqID jobID now ms (logs ++ [row]) =
      newLogRows boqID jobID now ms logs := by
  unfold newLogRows
  congr 1
  apply List.filter_congr
  intro m hm
  have hx : logExists (logs ++ [row]) boqID m.materialID jobID =
      logExists logs boqID m.materialID jobID := by
    rw [logExists_append]
    have : logExists [row] boqID m.materialID jobID = false := by
      simp [logExists, hrow m hm]
    rw [this, Bool.or_false]
  rw [hx]

theorem insertPriceLogs_noFault_char (boqID jobID : Nat)
    (ms : List JobMaterial) :
    ∀ (k : Nat) (tx : DB),
      (ms.map JobMaterial.materialID).Nodup →
      ∃ k', insertPriceLogs noFault boqID jobID k ms tx =
        .ok ({ tx with priceLogs := tx.priceLogs ++ newLogRows boqID jobID tx.now ms tx.priceLogs }, k') := by
  induction ms with
  | nil =>
    intro k tx _
    exact ⟨k, by simp [insertPriceLogs, newLogRows]⟩
  | cons m ms ih =>
    intro k tx hnd
    rw [List.map_cons, List.nodup_cons] at hnd
    obtain ⟨hnotin, hnd'⟩ := hnd
    rw [insertPriceLogs]
    cases hx : logExists tx.priceLogs boqID m.materialID jobID with
    | true =>
      obtain ⟨k', hk'⟩ := ih (k + 1) tx hnd'
      refine ⟨k', ?_⟩
      simpa [noFault, hx, newLogRows, List.filter_cons] using hk'
    | false =>
      have hfresh : ∀ m' ∈ ms,
          ((⟨m.materialID, boqID, jobID, m.quantity, tx.now⟩ :
            MaterialPriceLog).materialID == m'.materialID) = false := by
        intro m' hm'
        have : m.materialID ≠ m'.materialID := by
          intro hcontra
          exact hnotin (hcontra ▸ List.mem_map_of_mem JobMaterial.materialID hm')
        simpa using this
      obtain ⟨k', hk'⟩ := ih (k + 2)
        { tx with priceLogs := tx.priceLogs ++ [⟨m.materialID, boqID, jobID, m.quantity, tx.now⟩] } hnd'
      refine ⟨k', ?_⟩
      rw [show noFault k = none from rfl]
      simp only [hx, Bool.false_eq_true, if_false]
      rw [show noFault (k + 1) = none from rfl]
      rw [hk']
      rw [newLogRows_append_fresh boqID jobID tx.now ms tx.priceLogs _ hfresh]
      have hhead : newLogRows boqID jobID tx.now (m :: ms) tx.priceLogs =
          ⟨m.materialID, boqID, jobID, m.quantity, tx.now⟩ ::
            newLogRows boqID jobID tx.now ms tx.priceLogs := by
        unfold newLogRows
        rw [List.filter_cons]
        simp [hx]
      rw [hhead]
      simp [List.append_assoc]

theorem insertPriceLogs_noFault_sat (boqID jobID : Nat)
    (ms : List JobMaterial) :
    ∀ (k : Nat) (tx tx' : DB) (k' : Nat),
      insertPriceLogs noFault boqID jobID k ms tx = .ok (tx', k') →
      ∀ m ∈ ms, logExists tx'.priceLogs boqID m.materialID jobID = true := by
  induction ms with
  | nil => intro k tx tx' k' _ m hm; exact absurd hm (List.not_mem_nil m)
  | cons m ms ih =>
    intro k tx tx' k' h m'' hm''
    rw [insertPriceLogs] at h
    rw [show noFault k = none from rfl] at h
    simp only at h
    cases hx : logExists tx.priceLogs boqID m.materialID jobID with
    | true =>
      rw [hx] at h
      simp only [if_true] at h
      rcases List.mem_cons.mp hm'' with heq | hmem
      · subst heq
        obtain ⟨ext, hext⟩ := insertPriceLogs_shape noFault boqID jobID ms _ _ _ _ h
        rw [hext]
        simp only [logExists_append, hx, Bool.true_or]
      · exact ih _ _ _ _ h m'' hmem
    | false =>
      rw [hx] at h
      simp only [Bool.false_eq_true, if_false] at h
      rw [show noFault (k + 1) = none from rfl] at h
      simp only at h
      rcases List.mem_cons.mp hm'' with heq | hmem
      · subst heq
        obtain ⟨ext, hext⟩ := insertPriceLogs_shape noFault boqID jobID ms _ _ _ _ h
        rw [hext]
        simp [logExists_append, logExists]
      · exact ih _ _ _ _ h m'' hmem

theorem insertPriceLogs_noFault_noop (boqID jobID : Nat)
    (ms : List JobMaterial) :
    ∀ (k : Nat) (tx : DB),
      (∀ m ∈ ms, logExists tx.priceLogs boqID m.materialID jobID = true) →
      ∃ k', insertPriceLogs noFault boqID jobID k ms tx = .ok (tx, k') := by
  induction ms with
  | nil => intro k tx _; exact ⟨k, rfl⟩
  | cons m ms ih =>
    intro k tx hall
    obtain ⟨k', hk'⟩ := ih (k + 1) tx (fun m' hm' => hall m' (List.mem_cons_of_mem m hm'))
    refine ⟨k', ?_⟩
    rw [insertPriceLogs, show noFault k = none from rfl]
    simp only [hall m (List.mem_cons_self m ms), if_true]
    exact hk'

/-- C7: a successful `AddBOQJob` on a draft BOQ inserts exactly one
`material_price_log` row per job material whose
`(boq_id, material_id, job_id)` triple is not yet logged, carrying
that material's quantity and the clock value; re-running the
price-log step for the same `(boqID, jobID)` on the resulting state
inserts zero additional rows. -/
theorem addBOQJob_priceLogs_exactly_and_idempotent (db : DB)
    (boqID : Nat) (req : BOQJobRequest) (b : Boq)
    (hfind : db.boqs.find? (fun x => x.boqID == boqID) = some b)
    (hdraft : b.status = "draft")
    (hnew : db.boqJobs.any (fun bj => bj.boqID == boqID && bj.jobID == req.jobID) = false)
    (hnd : ((db.jobMaterials.filter (fun m => m.jobID == req.jobID)).map JobMaterial.materialID).Nodup) :
    AddBOQJob noFault db boqID req =
      ({ db with
          boqJobs := db.boqJobs ++ [⟨boqID, req.jobID, req.quantity, req.laborCost⟩],
          priceLogs := db.priceLogs ++ newLogRows boqID req.jobID db.now (db.jobMaterials.filter (fun m => m.jobID == req.jobID)) db.priceLogs }, .ok ()) ∧
    (∀ k0 : Nat, ∃ k', insertPriceLogs noFault boqID req.jobID k0
        (db.jobMaterials.filter (fun m => m.jobID == req.jobID))
        (AddBOQJob noFault db boqID req).1 =
      .ok ((AddBOQJob noFault db boqID req).1, k')) := by
  obtain ⟨kc, hrun⟩ := insertPriceLogs_noFault_char boqID req.jobID
    (db.jobMaterials.filter (fun m => m.jobID == req.jobID)) 4
    { db with boqJobs := db.boqJobs ++ [⟨boqID, req.jobID, req.quantity, req.laborCost⟩] } hnd
  have hmain : AddBOQJob noFault db boqID req =
      ({ db with
          boqJobs := db.boqJobs ++ [⟨boqID, req.jobID, req.quantity, req.laborCost⟩],
          priceLogs := db.priceLogs ++ newLogRows boqID req.jobID db.now (db.jobMaterials.filter (fun m => m.jobID == req.jobID)) db.priceLogs }, .ok ()) := by
    unfold AddBOQJob fetchStatus insertBoqJob selectMaterials
    simp [noFault, hfind, hdraft, hnew, hrun]
  refine ⟨hmain, ?_⟩
  intro k0
  have hsat := insertPriceLogs_noFault_sat boqID req.jobID
    (db.jobMaterials.filter (fun m => m.jobID == req.jobID)) 4 _ _ _ hrun
  have hfst : (AddBOQJob noFault db boqID req).1 =
      { db with
          boqJobs := db.boqJobs ++ [⟨boqID, req.jobID, req.quantity, req.laborCost⟩],
          priceLogs := db.priceLogs ++ newLogRows boqID req.jobID db.now (db.jobMaterials.filter (fun m => m.jobID == req.jobID)) db.priceLogs } := by
    rw [hmain]
  rw [hfst]
  apply insertPriceLogs_noFault_noop
  intro m hm
  exact hsat m hm

/-- Witness for C7: adding job 20 (materials Steel and Cement) to the
empty draft BOQ 7 of `draftDB`. -/
theorem addBOQJob_priceLogs_exactly_and_idempotent_witness :
    AddBOQJob noFault draftDB 7 reqJ20 =
      ({ draftDB with
          boqJobs := draftDB.boqJobs ++ [⟨7, reqJ20.jobID, reqJ20.quantity, reqJ20.laborCost⟩],
          priceLogs := draftDB.priceLogs ++ newLogRows 7 reqJ20.jobID draftDB.now (draftDB.jobMaterials.filter (fun m => m.jobID == reqJ20.jobID)) draftDB.priceLogs }, .ok ()) ∧
    (∃ k', insertPriceLogs noFault 7 reqJ20.jobID 0
        (draftDB.jobMaterials.filter (fun m => m.jobID == reqJ20.jobID))
        (AddBOQJob noFault draftDB 7 reqJ20).1 =
      .ok ((AddBOQJob noFault draftDB 7 reqJ20).1, k')) :=
  ⟨(addBOQJob_priceLogs_exactly_and_idempotent draftDB 7 reqJ20
      ⟨7, 1, "draft", none⟩ rfl rfl rfl (by decide)).1,
   (addBOQJob_priceLogs_exactly_and_idempotent draftDB 7 reqJ20
      ⟨7, 1, "draft", none⟩ rfl rfl rfl (by decide)).2 0⟩

theorem applyOp_boqs (env : Env) (op : Op) (db : DB) :
    (applyOp env op db).boqs = db.boqs := by
  cases op with
  | get freshId projectID =>
    simp only [applyOp]
    rw [getBoq_durable]
  | add boqID req =>
    simp only [applyOp]
    rcases addBOQJob_shape env db boqID req with h | ⟨_, _, ext, hext⟩
    · rw [h]
    · rw [hext]
  | del boqID jobID =>
    simp only [applyOp]
    rcases deleteBOQJob_shape env db boqID jobID with h | ⟨_, _, hext⟩
    · rw [h]
    · rw [hext]

theorem statusOf_applyOp (env : Env) (op : Op) (db : DB) (boqID : Nat) :
    statusOf (applyOp env op db) boqID = statusOf db boqID := by
  unfold statusOf
  rw [applyOp_boqs]

theorem jobSet_change_needs_draft (env : Env) (op : Op) (db : DB)
    (boqID : Nat)
    (hne : jobSet (applyOp env op db) boqID ≠ jobSet db boqID) :
    statusOf db boqID = some "draft" := by
  cases op with
  | get freshId projectID =>
    exact absurd (by simp only [applyOp]; rw [getBoq_durable]) hne
  | add x req =>
    rcases addBOQJob_shape env db x req with h | ⟨_, hst, ext, hext⟩
    · exact absurd (by simp only [applyOp]; rw [h]) hne
    · by_cases hxb : x = boqID
      · subst hxb
        exact fetchStatus_ok hst
      · exfalso
        apply hne
        simp only [applyOp]
        unfold jobSet
        rw [hext]
        have hrow : ((⟨x, req.jobID, req.quantity, req.laborCost⟩ :
            BoqJob).boqID == boqID) = false := by
          simpa using hxb
        simp [List.filter_append, hrow]
  | del x jobID =>
    rcases deleteBOQJob_shape env db x jobID with h | ⟨_, hst, hext⟩
    · exact absurd (by simp only [applyOp]; rw [h]) hne
    · by_cases hxb : x = boqID
      · subst hxb
        exact fetchStatus_ok hst
      · exfalso
        apply hne
        simp only [applyOp]
        unfold jobSet
        rw [hext]
        rw [List.filter_filter]
        apply List.filter_congr
        intro a ha
        cases hpa : (a.boqID == boqID) with
        | false => simp [hpa]
        | true =>
          have haeq : a.boqID = boqID := by simpa using hpa
          have hax : (a.boqID == x) = false := by
            simp only [beq_eq_false_iff_ne, ne_eq, haeq]
            exact fun hc => hxb hc.symm
          simp [hpa, hax]

/-- C10: over every sequence of repository calls, the `boq_job` rows
of a given BOQ change only in steps where that BOQ's stored status is
draft at the time of the operation; in particular, every sequence of
calls preserves the job set of a non-draft BOQ. -/
theorem jobSet_changes_only_in_draft :
    (∀ (env : Env) (op : Op) (db : DB) (boqID : Nat),
      jobSet (applyOp env op db) boqID ≠ jobSet db boqID →
      statusOf db boqID = some "draft") ∧
    (∀ (env : Env) (ops : List Op) (db : DB) (boqID : Nat),
      statusOf db boqID ≠ some "draft" →
      jobSet (runOps env ops db) boqID = jobSet db boqID) := by
  refine ⟨fun env op db boqID hne =>
    jobSet_change_needs_draft env op db boqID hne, ?_⟩
  intro env ops
  induction ops with
  | nil =>
    intro db boqID _
    rfl
  | cons op ops ih =>
    intro db boqID hnd
    have hstep : jobSet (applyOp env op db) boqID = jobSet db boqID := by
      by_contra hc
      exact hnd (jobSet_change_needs_draft env op db boqID hc)
    have hnd' : statusOf (applyOp env op db) boqID ≠ some "draft" := by
      rw [statusOf_applyOp]
      exact hnd
    calc jobSet (runOps env (op :: ops) db) boqID
        = jobSet (runOps env ops (applyOp env op db)) boqID := rfl
      _ = jobSet (applyOp env op db) boqID := ih (applyOp env op db) boqID hnd'
      _ = jobSet db boqID := hstep

/-- Witness for C10: adding job 20 changes the job set of draft BOQ 7,
whose status is draft; the same call sequence leaves the job set of
the confirmed BOQ of `confirmedDB` unchanged. -/
theorem jobSet_changes_only_in_draft_witness :
    statusOf draftDB 7 = some "draft" ∧
    jobSet (runOps noFault [Op.add 7 reqJ20] confirmedDB) 7 =
      jobSet confirmedDB 7 :=
  ⟨jobSet_changes_only_in_draft.1 noFault (.add 7 reqJ20) draftDB 7 (by decide),
   jobSet_changes_only_in_draft.2 noFault [.add 7 reqJ20] confirmedDB 7 (by decide)⟩

end BoqRepo
